import Mathlib

/-!
Verification of the session-revocation and step-up-authentication core of the
SecureBank demo application, shallowly embedded from `src/sessionStore.mjs`,
`src/universalLogout.mjs` and `src/routes/wire-transfer.mjs`.

The in-memory session store (`express-session` MemoryStore) is modelled as an
association list from session id to session record; `store.destroy` deletes the
entry synchronously and `store.all` enumerates a snapshot, matching the
MemoryStore implementation.  The user-session directory (`userSessions`, a JS
`Map` of email to `Set` of session ids) is modelled as an association list from
normalized email to a duplicate-free list of session ids.  JavaScript
string truthiness (undefined and "" are falsy) is modelled via `Option String`
with `some ""` falsy.
-/

namespace BankingApp

/-- The authenticated principal embedded in a session record
(`sessionData.passport.user`).  Each field is `Option` because the
corresponding JS property may be absent; `some ""` models a present but
empty (falsy) string. -/
structure Principal where
  /-- JS `user.emails?.[0]?.value` -/
  emailsHead : Option String
  /-- JS `user.email` -/
  email : Option String
  /-- JS `user._json?.email` -/
  jsonEmail : Option String
  /-- JS `user.preferred_username` -/
  preferredUsername : Option String
  /-- JS `user.id` -/
  id : Option String
  /-- JS `user._json?.sub` -/
  jsonSub : Option String
deriving DecidableEq, Repr

/-- A session record as seen by the revocation scanners: only the presence and
shape of `sessionData.passport.user` matters. -/
structure SessionData where
  /-- JS `sessionData.passport && sessionData.passport.user` -/
  passportUser : Option Principal
deriving DecidableEq, Repr

/-- The session store contents: session id mapped to its record. -/
abbrev Store := List (String × SessionData)

/-- The user-session directory `userSessions`: normalized email mapped to the
list of registered session ids (a JS `Set`, so duplicate-free). -/
abbrev Directory := List (String × List String)

/-- A call issued against the session store, recorded to state
frame conditions ("performs no store calls"). -/
inductive StoreCall
  | destroy (sid : String)
  | all
deriving DecidableEq, Repr

/-- Model of JS `String.prototype.toLowerCase` on one character (ASCII range,
which covers the email identifiers this application handles). -/
def lowerChar (c : Char) : Char :=
  if 65 ≤ c.toNat ∧ c.toNat ≤ 90 then Char.ofNat (c.toNat + 32) else c

/-- Model of JS `String.prototype.toLowerCase` (structurally recursive so
concrete evaluation reduces in the kernel). -/
def lowerStr (s : String) : String := ⟨s.data.map lowerChar⟩

/-- Lookup in an association list (JS `Map.get` / `Map.has`). -/
def lookupKey {α : Type} (k : String) : List (String × α) → Option α
  | [] => none
  | (k', v) :: rest => if k' = k then some v else lookupKey k rest

/-- Remove a key from an association list (JS `Map.delete`). -/
def eraseKey {α : Type} (k : String) : List (String × α) → List (String × α)
  | [] => []
  | (k', v) :: rest => if k' = k then rest else (k', v) :: eraseKey k rest

/-- Set a key's value in an association list (JS `Map.set`): updates in place
if present, appends otherwise. -/
def setKey {α : Type} (k : String) (v : α) : List (String × α) → List (String × α)
  | [] => [(k, v)]
  | (k', v') :: rest => if k' = k then (k, v) :: rest else (k', v') :: setKey k v rest

/-- Embeds `registerUserSession(email, sessionId)` from `src/sessionStore.mjs`:
no-op on falsy arguments; otherwise lowercases the email, creates the entry
if absent, and adds the session id to its set. -/
def registerUserSession (email sessionId : String) (d : Directory) : Directory :=
  if email = "" ∨ sessionId = "" then d
  else
    let normalizedEmail := lowerStr email
    match lookupKey normalizedEmail d with
    | none => setKey normalizedEmail [sessionId] d
    | some s => setKey normalizedEmail (if sessionId ∈ s then s else s ++ [sessionId]) d

/-- Embeds `unregisterUserSession(email, sessionId)` from `src/sessionStore.mjs`:
no-op on falsy arguments or unknown email; removes the session id and prunes
the entry when its set becomes empty. -/
def unregisterUserSession (email sessionId : String) (d : Directory) : Directory :=
  if email = "" ∨ sessionId = "" then d
  else
    let normalizedEmail := lowerStr email
    match lookupKey normalizedEmail d with
    | none => d
    | some s =>
      let s' := s.erase sessionId
      if s' = [] then eraseKey normalizedEmail d else setKey normalizedEmail s' d

/-- The Directory invariant from the spec: an entry exists if and only if its
session-id set is non-empty.  Over the association-list model this says every
present entry carries a non-empty list (the other direction of the "iff" is
immediate: a non-empty set can only be observed through a present entry). -/
def DirInvariant (d : Directory) : Prop :=
  ∀ p ∈ d, p.2 ≠ ([] : List String)

/-- First truthy value of a chain of JS `||` alternatives over possibly-absent
strings: `undefined` and `""` are falsy. -/
def firstTruthy : List (Option String) → Option String
  | [] => none
  | none :: rest => firstTruthy rest
  | some s :: rest => if s = "" then firstTruthy rest else some s

/-- The fallback scan's email extraction in `destroyUserSessions`:
`user.emails?.[0]?.value || user.email || user._json?.email ||
user.preferred_username`. -/
def extractEmail (u : Principal) : Option String :=
  firstTruthy [u.emailsHead, u.email, u.jsonEmail, u.preferredUsername]

/-- JS `userEmail && userEmail.toLowerCase() === normalizedEmail` applied to a
session record, guarded by `sessionData.passport && sessionData.passport.user`. -/
def sessionMatchesEmail (normalizedEmail : String) (sd : SessionData) : Bool :=
  match sd.passportUser with
  | none => false
  | some u =>
    match extractEmail u with
    | none => false
    | some e => lowerStr e == normalizedEmail

/-- Effect of issuing `store.destroy(sid)` for each id in `sids`
(MemoryStore deletes synchronously; destroying an absent id is a no-op). -/
def removeSessions (sids : List String) (st : Store) : Store :=
  st.filter (fun p => decide (p.1 ∉ sids))

/-- Result of `destroyUserSessions`: returned count, final directory and
store contents, and the trace of store calls issued. -/
structure DestroyResult where
  count : Nat
  dir : Directory
  store : Store
  trace : List StoreCall
deriving DecidableEq, Repr

/-- Method 2 of `destroyUserSessions` (the `store.all` promise): enumerate the
store contents left by Method 1, destroy and count every session whose
extracted principal email lowercases to the target, and resolve with the
accumulated count.  `c1`, `d1`, `st1`, `tr1` are the count, directory, store
contents and call trace after Method 1. -/
def destroyFallback (normalizedEmail : String) (c1 : Nat) (d1 : Directory)
    (st1 : Store) (tr1 : List StoreCall) : DestroyResult :=
  let matched := st1.filter (fun p => sessionMatchesEmail normalizedEmail p.2)
  { count := c1 + matched.length
    dir := d1
    store := removeSessions (matched.map Prod.fst) st1
    trace := tr1 ++ StoreCall.all :: matched.map (fun p => StoreCall.destroy p.1) }

/-- Embeds `destroyUserSessions(email)` from `src/sessionStore.mjs`.  Returns 0 on a
falsy email.  Method 1: if the directory has an entry for the lowercased
email, destroy every registered session id, count them, and delete the entry
(MemoryStore deletes synchronously, so these sessions are gone before the
fallback enumerates).  Method 2 (always): `destroyFallback`. -/
def destroyUserSessions (email : String) (d : Directory) (st : Store) : DestroyResult :=
  if email = "" then ⟨0, d, st, []⟩
  else
    let normalizedEmail := lowerStr email
    match lookupKey normalizedEmail d with
    | some sids =>
        destroyFallback normalizedEmail sids.length (eraseKey normalizedEmail d)
          (removeSessions sids st) (sids.map StoreCall.destroy)
    | none => destroyFallback normalizedEmail 0 d st []

/-- JS `user.id === subject || user._json?.sub === subject` applied to a session
record, guarded by `sessionData.passport && sessionData.passport.user`
(from `destroyUserSessionsBySubject` in `src/universalLogout.mjs`). -/
def matchesSubject (subject : String) (sd : SessionData) : Bool :=
  match sd.passportUser with
  | none => false
  | some u => u.id == some subject || u.jsonSub == some subject

/-- Result of `destroyUserSessionsBySubject`: count, final store contents and
the trace of store calls.  The function never touches the directory, so the
result carries none. -/
structure ScanResult where
  count : Nat
  store : Store
  trace : List StoreCall
deriving DecidableEq, Repr

/-- Embeds `destroyUserSessionsBySubject(subject)` from `src/universalLogout.mjs`:
enumerate the store and destroy and count every session whose principal's
`id` or `_json.sub` equals the subject. -/
def destroyUserSessionsBySubject (subject : String) (st : Store) : ScanResult :=
  let matched := st.filter (fun p => matchesSubject subject p.2)
  let matchedSids := matched.map Prod.fst
  { count := matched.length
    store := st.filter (fun p => decide (p.1 ∉ matchedSids))
    trace := StoreCall.all :: matched.map (fun p => StoreCall.destroy p.1) }

/-! ## Step-up authentication gate (`src/routes/wire-transfer.mjs`) -/

/-- The per-request session state read and written by the wire-transfer route:
`req.isAuthenticated()`, `req.session.mfaVerified`, `req.session.mfaVerifiedAt`
(a JS number timestamp, absent before any step-up; `some 0` models the falsy
number 0), and `req.session.mfaReturnUrl`. -/
structure MfaSession where
  authenticated : Bool
  mfaVerified : Bool
  mfaVerifiedAt : Option Int
  mfaReturnUrl : Option String
deriving DecidableEq, Repr

/-- Constant `MFA_TIMEOUT = 5 * 60 * 1000` milliseconds from `src/routes/wire-transfer.mjs`. -/
def MFA_TIMEOUT : Int := 5 * 60 * 1000

/-- Outcome of one Express middleware: call `next()` (possibly with session
mutated) or short-circuit with a redirect. -/
inductive GateResult
  | proceed (s : MfaSession)
  | redirect (path : String) (s : MfaSession)
deriving DecidableEq, Repr

/-- The freshness condition of `ensureMfaVerified`:
`mfaVerified && mfaVerifiedAt && (now - mfaVerifiedAt) < MFA_TIMEOUT`.
A numeric `mfaVerifiedAt` is truthy in JS exactly when it is nonzero. -/
def mfaCheckPasses (now : Int) (s : MfaSession) : Bool :=
  s.mfaVerified &&
    (match s.mfaVerifiedAt with
     | none => false
     | some t => t != 0 && decide (now - t < MFA_TIMEOUT))

/-- Embeds `ensureMfaVerified(req, res, next)` from `src/routes/wire-transfer.mjs`:
proceed when the freshness condition holds; otherwise record
`req.session.mfaReturnUrl = '/wire-transfer'` and redirect to `/stepup-mfa`. -/
def ensureMfaVerified (now : Int) (s : MfaSession) : GateResult :=
  if mfaCheckPasses now s then .proceed s
  else .redirect "/stepup-mfa" { s with mfaReturnUrl := some "/wire-transfer" }

/-- The two middlewares installed on the wire-transfer router. -/
inductive Middleware
  | loggedIn
  | mfaGate
deriving DecidableEq, Repr

/-- Route `router.get('/', ensureLoggedIn, ensureMfaVerified, handler)`:
the middleware chain in front of the GET handler. -/
def wireTransferGetChain : List Middleware := [.loggedIn, .mfaGate]

/-- Route `router.post('/', ensureLoggedIn, handler)`:
the middleware chain in front of the POST handler. -/
def wireTransferPostChain : List Middleware := [.loggedIn]

/-- Middleware `ensureLoggedIn` proceeds iff `req.isAuthenticated()`, else redirects to
`/login`; `mfaGate` is `ensureMfaVerified`. -/
def runMiddleware (now : Int) (m : Middleware) (s : MfaSession) : GateResult :=
  match m with
  | .loggedIn => if s.authenticated then .proceed s else .redirect "/login" s
  | .mfaGate => ensureMfaVerified now s

/-- Result of running a middleware chain: the request reaches the route
handler, or some middleware short-circuited with a redirect. -/
inductive ChainResult
  | reachedHandler (s : MfaSession)
  | redirected (path : String) (s : MfaSession)
deriving DecidableEq, Repr

/-- Express runs the middlewares in order; each either calls `next()` or
responds with a redirect, in which case the handler is never reached. -/
def runChain (now : Int) : List Middleware → MfaSession → ChainResult
  | [], s => .reachedHandler s
  | m :: rest, s =>
    match runMiddleware now m s with
    | .proceed s' => runChain now rest s'
    | .redirect p s' => .redirected p s'

/-! ## Revocation token validation (`src/universalLogout.mjs`) -/

/-- Decoded JWT header: `kid` (key id) and `typ`, plus the algorithm the
token is signed with. -/
structure JwtHeader where
  kid : Option String
  typ : Option String
  alg : String
deriving DecidableEq, Repr

/-- Decoded JWT payload claims consumed by validation. -/
structure JwtPayload where
  iss : Option String
  aud : Option String
  exp : Option Int
  nbf : Option Int
  sub : Option String
deriving DecidableEq, Repr

/-- A decoded revocation token.  `signerKey` is the public key whose private
counterpart actually produced the signature; signature verification against a
candidate key succeeds exactly when the keys coincide (soundness of RSA is
assumed, as the cryptography lives outside the repository). -/
structure LogoutToken where
  header : JwtHeader
  payload : JwtPayload
  signerKey : String
deriving DecidableEq, Repr

/-- The failure modes of `validateLogoutToken`, named after the JS error
classes the middleware discriminates on (`err.name`). -/
inductive JwtError
  /-- Case `jwt.decode` returned null: `throw new Error('Invalid token format')`
  (name `Error`). -/
  | invalidTokenFormat
  /-- Case `getSigningKey` rejected (jwks-rsa `SigningKeyNotFoundError`). -/
  | keyNotFound
  /-- Case `TokenExpiredError`. -/
  | tokenExpired
  /-- Case `NotBeforeError` (its `name` is `NotBeforeError`, not
  `JsonWebTokenError`). -/
  | notBefore
  /-- Case `JsonWebTokenError` with its message. -/
  | jsonWebToken (msg : String)
deriving DecidableEq, Repr

/-- Option `algorithms: ['RS256', 'RS384', 'RS512']` passed to `jwt.verify`. -/
def allowedAlgs : List String := ["RS256", "RS384", "RS512"]

/-- The JWKS `getSigningKey` lookup: resolve the header's `kid` in the cached
key set. -/
def getSigningKey (keys : List (String × String)) (h : JwtHeader) : Option String :=
  match h.kid with
  | none => none
  | some kid => lookupKey kid keys

/-- Check `payload.nbf > clockTimestamp + clockTolerance` (jsonwebtoken's
not-before check; skipped when `nbf` is absent). -/
def nbfViolated (nbf : Option Int) (tolerance now : Int) : Bool :=
  match nbf with
  | none => false
  | some t => decide (now + tolerance < t)

/-- Check `clockTimestamp >= payload.exp + clockTolerance` (jsonwebtoken's expiry
check; skipped when `exp` is absent). -/
def expViolated (exp : Option Int) (tolerance now : Int) : Bool :=
  match exp with
  | none => false
  | some t => decide (t + tolerance ≤ now)

/-- Embeds `jwt.verify(token, signingKey, { algorithms, issuer, audience,
clockTolerance })`: checks, in the library's order, algorithm, signature,
not-before, expiry, audience, issuer. -/
def jwtVerify (tok : LogoutToken) (signingKey expectedIssuer expectedAudience : String)
    (clockTolerance now : Int) : Except JwtError JwtPayload :=
  if tok.header.alg ∉ allowedAlgs then .error (.jsonWebToken "invalid algorithm")
  else if tok.signerKey ≠ signingKey then .error (.jsonWebToken "invalid signature")
  else if nbfViolated tok.payload.nbf clockTolerance now then .error .notBefore
  else if expViolated tok.payload.exp clockTolerance now then .error .tokenExpired
  else if tok.payload.aud ≠ some expectedAudience then
    .error (.jsonWebToken ("jwt audience invalid. expected: " ++ expectedAudience))
  else if tok.payload.iss ≠ some expectedIssuer then
    .error (.jsonWebToken ("jwt issuer invalid. expected: " ++ expectedIssuer))
  else .ok tok.payload

/-- Embeds `validateLogoutToken(token, expectedAudience, expectedIssuer)` from
`src/universalLogout.mjs`: decode (failure → `Invalid token format`); warn but
proceed on an unexpected `typ`; resolve the signing key by `kid`; verify with
a 30-second clock tolerance. -/
def validateLogoutToken (decoded : Option LogoutToken) (keys : List (String × String))
    (expectedAudience expectedIssuer : String) (now : Int) : Except JwtError JwtPayload :=
  match decoded with
  | none => .error .invalidTokenFormat
  | some tok =>
    match getSigningKey keys tok.header with
    | none => .error .keyNotFound
    | some key => jwtVerify tok key expectedIssuer expectedAudience 30 now

/-- The 401 `error_description` chosen by `universalLogoutAuth`'s catch block:
`TokenExpiredError` → `Token has expired`; `JsonWebTokenError` →
`Invalid token: <message>`; anything else → `Token validation failed`. -/
def describeJwtError : JwtError → String
  | .tokenExpired => "Token has expired"
  | .jsonWebToken msg => "Invalid token: " ++ msg
  | .invalidTokenFormat => "Token validation failed"
  | .keyNotFound => "Token validation failed"
  | .notBefore => "Token validation failed"

/-- Outcome of the `universalLogoutAuth` middleware: `next()` with the
validated payload attached as `req.logoutToken`, or a 401 JSON response with
the given `error_description`. -/
inductive AuthOutcome
  | next (payload : JwtPayload)
  | unauthorized (description : String)
deriving DecidableEq, Repr

/-- JS `orgUrl.endsWith('/') ? orgUrl.slice(0, -1) : orgUrl`. -/
def stripTrailingSlash (s : String) : String :=
  if s.data.getLast? = some '/' then ⟨s.data.dropLast⟩ else s

/-- Model of JS `String.prototype.split(' ')` (structurally recursive). -/
def splitSpaceAux : List Char → List Char → List String
  | [], acc => [⟨acc.reverse⟩]
  | c :: rest, acc =>
    if c = ' ' then ⟨acc.reverse⟩ :: splitSpaceAux rest []
    else splitSpaceAux rest (c :: acc)

/-- JS `authHeader.split(' ')`. -/
def splitSpace (s : String) : List String := splitSpaceAux s.data []

/-- Embeds `universalLogoutAuth(orgUrl, revocationEndpoint)` from
`src/universalLogout.mjs`.  `authHeader` is `req.headers.authorization`
(`some ""` is falsy, like a missing header); `decodeToken` models
`jwt.decode` on the bearer token string; `keys` is the JWKS key set. -/
def universalLogoutAuth (orgUrl revocationEndpoint : String) (authHeader : Option String)
    (decodeToken : String → Option LogoutToken) (keys : List (String × String))
    (now : Int) : AuthOutcome :=
  let expectedIssuer := stripTrailingSlash orgUrl
  match authHeader with
  | none => .unauthorized "Missing authorization header"
  | some h =>
    if h = "" then .unauthorized "Missing authorization header"
    else
      let parts := splitSpace h
      let scheme := parts.getD 0 ""
      let token := parts.getD 1 ""
      if lowerStr scheme ≠ "bearer" ∨ token = "" then
        .unauthorized "Invalid authorization scheme. Expected: Bearer \x7btoken\x7d"
      else
        match validateLogoutToken (decodeToken token) keys revocationEndpoint
            expectedIssuer now with
        | .ok payload => .next payload
        | .error e => .unauthorized (describeJwtError e)

/-! ## Revocation endpoint handler (`src/universalLogout.mjs`) -/

/-- The `sub_id` object of the request body; each field may be absent, and
`some ""` models a present but empty (falsy) string. -/
structure SubId where
  format : Option String
  email : Option String
  iss : Option String
  sub : Option String
deriving DecidableEq, Repr

/-- The identifier extracted by `extractUserIdentifier`: `type`, `value` and
the format-specific fields. -/
inductive UserIdentifier
  /-- Shape `\x7b type: 'email', value: email, email \x7d` in source. -/
  | email (value email : String)
  /-- Shape `\x7b type: 'iss_sub', value: iss + '|' + sub, issuer: iss, subject: sub \x7d` in source. -/
  | issSub (value issuer subject : String)
deriving DecidableEq, Repr

/-- Embeds `extractUserIdentifier(subId)` from `src/universalLogout.mjs`: the switch
on `subId.format` accepting exactly the `email` and `iss_sub` variants with
truthy required fields; anything else yields null. -/
def extractUserIdentifier (s : SubId) : Option UserIdentifier :=
  if s.format = some "email" then
    match s.email with
    | none => none
    | some e => if e = "" then none else some (.email e e)
  else if s.format = some "iss_sub" then
    match s.iss, s.sub with
    | some i, some su =>
        if i = "" ∨ su = "" then none
        else some (.issSub (i ++ "|" ++ su) i su)
    | _, _ => none
  else none

/-- JS template-literal interpolation of `sub_id.format`
(undefined prints as `undefined`). -/
def jsShowOpt : Option String → String
  | none => "undefined"
  | some s => s

/-- The application state the revocation endpoint operates on: the
`userSessions` directory and the shared session store. -/
structure AppState where
  dir : Directory
  store : Store
deriving DecidableEq, Repr

/-- The HTTP responses the revocation route produces on the non-throwing
paths (the store model cannot throw, so 422/500 are unreachable here). -/
inductive RevocationResponse
  /-- Response `res.sendStatus(204)`. -/
  | noContent
  /-- Response `res.status(400).json(...)` with `error: 'invalid_request'`. -/
  | badRequest (description : String)
deriving DecidableEq, Repr

/-- Result of a `POST /global-token-revocation` request that passed
authentication: response, final application state, and session-store calls. -/
structure PostResult where
  response : RevocationResponse
  state : AppState
  calls : List StoreCall
deriving DecidableEq, Repr

/-- The authenticated `POST /global-token-revocation` handler from
`src/universalLogout.mjs`.  `body` models `req.body`: `none` is a missing
body, `some none` a body whose `sub_id` is falsy, `some (some subId)` a
present `sub_id`.  Email identifiers go through `destroyUserSessions`
(directory plus fallback scan); `iss_sub` identifiers go through
`destroyUserSessionsBySubject` (store scan only).  Both match counts,
including zero, answer 204. -/
def universalLogoutPost (body : Option (Option SubId)) (st : AppState) : PostResult :=
  match body with
  | none => ⟨.badRequest "Request body is required", st, []⟩
  | some none => ⟨.badRequest "sub_id is required", st, []⟩
  | some (some subId) =>
    match extractUserIdentifier subId with
    | none =>
      ⟨.badRequest ("Unrecognized subject identifier format: " ++ jsShowOpt subId.format
          ++ ". Supported formats: email, iss_sub"), st, []⟩
    | some (.email _ e) =>
      let r := destroyUserSessions e st.dir st.store
      ⟨.noContent, ⟨r.dir, r.store⟩, r.trace⟩
    | some (.issSub _ _ subject) =>
      let r := destroyUserSessionsBySubject subject st.store
      ⟨.noContent, ⟨st.dir, r.store⟩, r.trace⟩

/-- A sample revocation token whose `exp` (100) lies more than 30 seconds in
the past at clock time 1000, signed with key id `k1` by the key `PK1`,
addressed to the sample issuer and audience below. -/
def sampleExpiredToken : LogoutToken :=
  ⟨⟨some "k1", some "global-token-revocation+jwt", "RS256"⟩,
   ⟨some "https://org.example", some "https://app.example/revoke", some 100, none,
    some "user1"⟩,
   "PK1"⟩

/-! ## Association-list lemmas -/

theorem lookupKey_eq_none_iff {α : Type} (k : String) (l : List (String × α)) :
    lookupKey k l = none ↔ k ∉ l.map Prod.fst := by
  induction l with
  | nil => simp [lookupKey]
  | cons p rest ih =>
    obtain ⟨k', v⟩ := p
    by_cases h : k' = k
    · subst h
      simp [lookupKey]
    · simp only [lookupKey, if_neg h, List.map_cons, List.mem_cons, ih]
      constructor
      · rintro hnot (h1 | h2)
        · exact h h1.symm
        · exact hnot h2
      · intro hnot h1
        exact hnot (Or.inr h1)

theorem mem_setKey {α : Type} (k : String) (v : α) (l : List (String × α))
    (p : String × α) (h : p ∈ setKey k v l) : p = (k, v) ∨ p ∈ l := by
  induction l with
  | nil => simpa [setKey] using h
  | cons q rest ih =>
    obtain ⟨k', v'⟩ := q
    by_cases hk : k' = k
    · simp only [setKey, if_pos hk, List.mem_cons] at h
      rcases h with h | h
      · exact Or.inl h
      · exact Or.inr (List.mem_cons_of_mem _ h)
    · simp only [setKey, if_neg hk, List.mem_cons] at h
      rcases h with h | h
      · exact Or.inr (by simp [h])
      · rcases ih h with h1 | h1
        · exact Or.inl h1
        · exact Or.inr (List.mem_cons_of_mem _ h1)

theorem mem_eraseKey {α : Type} (k : String) (l : List (String × α))
    (p : String × α) (h : p ∈ eraseKey k l) : p ∈ l := by
  induction l with
  | nil => simp [eraseKey] at h
  | cons q rest ih =>
    obtain ⟨k', v'⟩ := q
    by_cases hk : k' = k
    · simp only [eraseKey, if_pos hk] at h
      exact List.mem_cons_of_mem _ h
    · simp only [eraseKey, if_neg hk, List.mem_cons] at h
      rcases h with h | h
      · simp [h]
      · exact List.mem_cons_of_mem _ (ih h)

theorem lookupKey_setKey_self {α : Type} (k : String) (v : α) (l : List (String × α)) :
    lookupKey k (setKey k v l) = some v := by
  induction l with
  | nil => simp [setKey, lookupKey]
  | cons q rest ih =>
    obtain ⟨k', v'⟩ := q
    by_cases hk : k' = k
    · simp [setKey, lookupKey, hk]
    · simp [setKey, lookupKey, hk, ih]

theorem eraseKey_setKey_of_lookup_none {α : Type} (k : String) (v : α)
    (l : List (String × α)) (h : lookupKey k l = none) :
    eraseKey k (setKey k v l) = l := by
  induction l with
  | nil => simp [setKey, eraseKey]
  | cons q rest ih =>
    obtain ⟨k', v'⟩ := q
    by_cases hk : k' = k
    · simp [lookupKey, hk] at h
    · simp only [lookupKey, if_neg hk] at h
      simp [setKey, eraseKey, hk, ih h]

theorem lookupKey_eraseKey_self {α : Type} (k : String) (l : List (String × α))
    (h : (l.map Prod.fst).Nodup) : lookupKey k (eraseKey k l) = none := by
  induction l with
  | nil => simp [eraseKey, lookupKey]
  | cons q rest ih =>
    obtain ⟨k', v'⟩ := q
    simp only [List.map_cons, List.nodup_cons] at h
    by_cases hk : k' = k
    · subst hk
      simp only [eraseKey, if_pos rfl]
      exact (lookupKey_eq_none_iff k' rest).mpr h.1
    · simp only [eraseKey, if_neg hk, lookupKey, if_neg hk]
      exact ih h.2

theorem eq_of_mem_of_nodup_keys {α : Type} (l : List (String × α))
    (h : (l.map Prod.fst).Nodup) (p q : String × α)
    (hp : p ∈ l) (hq : q ∈ l) (hk : p.1 = q.1) : p = q := by
  induction l with
  | nil => simp at hp
  | cons r rest ih =>
    simp only [List.map_cons, List.nodup_cons] at h
    rcases List.mem_cons.mp hp with hp1 | hp1 <;>
      rcases List.mem_cons.mp hq with hq1 | hq1
    · rw [hp1, hq1]
    · exfalso
      apply h.1
      rw [hp1] at hk
      rw [hk]
      exact List.mem_map_of_mem Prod.fst hq1
    · exfalso
      apply h.1
      rw [hq1] at hk
      rw [← hk]
      exact List.mem_map_of_mem Prod.fst hp1
    · exact ih h.2 hp1 hq1

/-! ## Claim theorems -/

/-- Claim C6, confirmed.  The Directory invariant "an entry exists iff its
session-id set is non-empty" is preserved by `registerUserSession`,
`unregisterUserSession` and `destroyUserSessions`; and for every identity,
`register` followed by `unregister` with the same session id, starting from a
Directory with no entry for that identity, leaves no entry for it. -/
theorem directory_entry_iff_nonempty_preserved :
    (∀ e sid d, DirInvariant d → DirInvariant (registerUserSession e sid d)) ∧
    (∀ e sid d, DirInvariant d → DirInvariant (unregisterUserSession e sid d)) ∧
    (∀ e d st, DirInvariant d → DirInvariant (destroyUserSessions e d st).dir) ∧
    (∀ e sid d, lookupKey (lowerStr e) d = none →
      lookupKey (lowerStr e)
        (unregisterUserSession e sid (registerUserSession e sid d)) = none) := by
  refine ⟨?_, ?_, ?_, ?_⟩
  · intro e sid d hinv
    unfold registerUserSession
    by_cases h : e = "" ∨ sid = ""
    · simpa [h] using hinv
    · simp only [if_neg h]
      cases hlk : lookupKey (lowerStr e) d with
      | none =>
        intro p hp
        rcases mem_setKey _ _ _ _ hp with h1 | h1
        · simp [h1]
        · exact hinv p h1
      | some s =>
        intro p hp
        rcases mem_setKey _ _ _ _ hp with h1 | h1
        · subst h1
          by_cases hmem : sid ∈ s
          · simpa [hmem] using List.ne_nil_of_mem hmem
          · simp [hmem]
        · exact hinv p h1
  · intro e sid d hinv
    unfold unregisterUserSession
    by_cases h : e = "" ∨ sid = ""
    · simpa [h] using hinv
    · simp only [if_neg h]
      cases hlk : lookupKey (lowerStr e) d with
      | none => exact hinv
      | some s =>
        by_cases hnil : s.erase sid = []
        · simp only [hnil, if_pos rfl]
          intro p hp
          exact hinv p (mem_eraseKey _ _ _ hp)
        · simp only [if_neg hnil]
          intro p hp
          rcases mem_setKey _ _ _ _ hp with h1 | h1
          · simp [h1, hnil]
          · exact hinv p h1
  · intro e d st hinv
    unfold destroyUserSessions
    by_cases h : e = ""
    · simpa [h] using hinv
    · simp only [if_neg h]
      cases hlk : lookupKey (lowerStr e) d with
      | none => exact hinv
      | some s =>
        intro p hp
        exact hinv p (mem_eraseKey _ _ _ (by simpa [destroyFallback] using hp))
  · intro e sid d hlk
    by_cases h : e = "" ∨ sid = ""
    · simpa [registerUserSession, unregisterUserSession, h] using hlk
    · unfold registerUserSession
      simp only [if_neg h, hlk]
      unfold unregisterUserSession
      simp only [if_neg h, lookupKey_setKey_self, List.erase_cons_head, if_pos rfl]
      rw [eraseKey_setKey_of_lookup_none _ _ _ hlk]
      exact hlk

/-- Witness for C6 at concrete inputs. -/
theorem directory_entry_iff_nonempty_preserved_witness :
    DirInvariant (registerUserSession "a@x" "s1" [("b@x", ["s2"])]) ∧
    lookupKey (lowerStr "a@x")
      (unregisterUserSession "a@x" "s1" (registerUserSession "a@x" "s1" [])) = none :=
  ⟨directory_entry_iff_nonempty_preserved.1 "a@x" "s1" [("b@x", ["s2"])]
    (by simp [DirInvariant]),
   directory_entry_iff_nonempty_preserved.2.2.2 "a@x" "s1" [] (by decide)⟩

/-- Sessions matching the target that sit in the fallback's input store are
all destroyed: their id does not survive into the resulting store. -/
theorem not_mem_destroyFallback_store (ne : String) (c1 : Nat) (d1 : Directory)
    (st1 : Store) (tr1 : List StoreCall) (sid : String) (sd : SessionData)
    (hmem : (sid, sd) ∈ st1) (hmatch : sessionMatchesEmail ne sd = true) :
    sid ∉ ((destroyFallback ne c1 d1 st1 tr1).store.map Prod.fst) := by
  intro hcontra
  obtain ⟨q, hq, hqs⟩ := List.mem_map.mp hcontra
  have hq' := List.mem_filter.mp hq
  have hnot : q.1 ∉ (st1.filter (fun p => sessionMatchesEmail ne p.2)).map Prod.fst :=
    of_decide_eq_true hq'.2
  apply hnot
  rw [hqs]
  exact List.mem_map_of_mem Prod.fst (List.mem_filter.mpr ⟨hmem, hmatch⟩)

/-- Claim C1, counterexample.  The claim "destroyUserSessions returns exactly N
for an identity registered with N distinct session ids" fails: here `a@x` is
registered with exactly one session id, but the store holds an untracked
session whose principal carries the same email, so the fallback scan counts it
too and the call returns 2 ≠ 1 (the spec itself warns the count may exceed the
sessions newly destroyed). -/
theorem destroyUserSessions_count_not_exactly_registered :
    lookupKey "a@x" [("a@x", ["s1"])] = some ["s1"] ∧
    (destroyUserSessions "a@x" [("a@x", ["s1"])]
      [("s2", ⟨some ⟨none, some "a@x", none, none, none, none⟩⟩)]).count = 2 ∧
    (2 : Nat) ≠ 1 := by
  decide

/-- Claim C1, amended.  For an identity registered with the session ids `sids`
(N = `sids.length`), `destroyUserSessions` returns N plus the number of
leftover store sessions whose principal email matches the identity, and always
leaves no Directory entry; the count is exactly N when every matching store
session is covered by the registered ids. -/
theorem destroyUserSessions_count_formula (email : String) (d : Directory) (st : Store)
    (sids : List String) (hemail : email ≠ "")
    (hnodup : (d.map Prod.fst).Nodup)
    (hlk : lookupKey (lowerStr email) d = some sids) :
    (destroyUserSessions email d st).count =
      sids.length +
        ((removeSessions sids st).filter
          (fun p => sessionMatchesEmail (lowerStr email) p.2)).length ∧
    lookupKey (lowerStr email) (destroyUserSessions email d st).dir = none ∧
    ((∀ p ∈ st, sessionMatchesEmail (lowerStr email) p.2 = true → p.1 ∈ sids) →
      (destroyUserSessions email d st).count = sids.length) := by
  have hunfold : destroyUserSessions email d st =
      destroyFallback (lowerStr email) sids.length (eraseKey (lowerStr email) d)
        (removeSessions sids st) (sids.map StoreCall.destroy) := by
    unfold destroyUserSessions
    simp [if_neg hemail, hlk]
  refine ⟨?_, ?_, ?_⟩
  · rw [hunfold]
    rfl
  · rw [hunfold]
    show lookupKey (lowerStr email) (eraseKey (lowerStr email) d) = none
    exact lookupKey_eraseKey_self _ _ hnodup
  · intro hcover
    have hnil : (removeSessions sids st).filter
        (fun p => sessionMatchesEmail (lowerStr email) p.2) = [] := by
      apply List.filter_eq_nil_iff.mpr
      intro p hp
      have hp' := List.mem_filter.mp hp
      have hnotin : p.1 ∉ sids := of_decide_eq_true hp'.2
      intro hmatch
      exact hnotin (hcover p hp'.1 hmatch)
    rw [hunfold]
    simp [destroyFallback, hnil]

/-- Witness for C1 at concrete inputs: `A@X` is registered with two session
ids, the store holds only tracked matching sessions, and the call returns
exactly 2. -/
theorem destroyUserSessions_count_formula_witness :
    (destroyUserSessions "A@X" [("a@x", ["s1", "s2"])]
      [("s1", ⟨some ⟨none, some "a@x", none, none, none, none⟩⟩)]).count = 2 := by
  have h := destroyUserSessions_count_formula "A@X" [("a@x", ["s1", "s2"])]
    [("s1", ⟨some ⟨none, some "a@x", none, none, none, none⟩⟩)] ["s1", "s2"]
    (by decide) (by decide) (by decide)
  exact h.2.2 (by decide)

/-- Claim C2, counterexample.  The claim "on an identity with no Directory
entry, destroyUserSessions returns 0 and performs no store calls" fails: the
fallback scan always runs, so here the call enumerates the store
(`store.all`), destroys a matching untracked session, and returns 1. -/
theorem destroyUserSessions_unknown_identity_scans_store :
    lookupKey (lowerStr "b@x") ([] : Directory) = none ∧
    (destroyUserSessions "b@x" []
      [("s1", ⟨some ⟨none, some "b@x", none, none, none, none⟩⟩)]).count = 1 ∧
    (destroyUserSessions "b@x" []
      [("s1", ⟨some ⟨none, some "b@x", none, none, none, none⟩⟩)]).trace =
      [StoreCall.all, StoreCall.destroy "s1"] := by
  decide

/-- Claim C2, amended.  Only a falsy (empty) identity returns 0 with no store
calls.  On a non-empty identity with no Directory entry the Directory pass
contributes nothing and the Directory is unchanged, but the fallback scan
still enumerates the store and the call returns the number of store sessions
whose principal email matches (0 when none match), tracing one `all` call
plus one `destroy` per match. -/
theorem destroyUserSessions_unknown_identity_behaviour :
    (∀ d st, destroyUserSessions "" d st = ⟨0, d, st, []⟩) ∧
    (∀ email d st, email ≠ "" → lookupKey (lowerStr email) d = none →
      (destroyUserSessions email d st).dir = d ∧
      (destroyUserSessions email d st).count =
        (st.filter (fun p => sessionMatchesEmail (lowerStr email) p.2)).length ∧
      (destroyUserSessions email d st).trace =
        StoreCall.all :: (st.filter (fun p => sessionMatchesEmail (lowerStr email) p.2)).map
          (fun p => StoreCall.destroy p.1)) := by
  constructor
  · intro d st
    rfl
  · intro email d st hemail hlk
    have hunfold : destroyUserSessions email d st =
        destroyFallback (lowerStr email) 0 d st [] := by
      unfold destroyUserSessions
      simp [if_neg hemail, hlk]
    refine ⟨by rw [hunfold]; rfl, by rw [hunfold]; simp [destroyFallback],
      by rw [hunfold]; rfl⟩

/-- Witness for C2 at concrete inputs: unknown identity, one non-matching
session in the store; the call still issues the enumeration call and
returns 0. -/
theorem destroyUserSessions_unknown_identity_behaviour_witness :
    (destroyUserSessions "b@x" []
      [("s9", ⟨some ⟨none, some "other@x", none, none, none, none⟩⟩)]).count = 0 ∧
    (destroyUserSessions "b@x" []
      [("s9", ⟨some ⟨none, some "other@x", none, none, none, none⟩⟩)]).trace =
      [StoreCall.all] := by
  have h := destroyUserSessions_unknown_identity_behaviour.2 "b@x" []
    [("s9", ⟨some ⟨none, some "other@x", none, none, none, none⟩⟩)]
    (by decide) (by decide)
  refine ⟨?_, ?_⟩
  · rw [h.2.1]
    decide
  · rw [h.2.2]
    decide

/-- Claim C3, counterexample.  The claim "a match on any one of the four
email-bearing fields suffices, regardless of the other fields" fails: this
principal carries the target email in its `email` field, but the extractor
takes the higher-priority `emails[0].value` first, so the fallback scan leaves
the session in the store and counts nothing. -/
theorem fallback_scan_ignores_lower_priority_fields :
    (⟨some "other@x", some "target@x", none, none, none,
        none⟩ : Principal).email = some "target@x" ∧
    (destroyUserSessions "target@x" []
      [("s1", ⟨some ⟨some "other@x", some "target@x", none, none, none, none⟩⟩)]).store =
      [("s1", ⟨some ⟨some "other@x", some "target@x", none, none, none, none⟩⟩)] ∧
    (destroyUserSessions "target@x" []
      [("s1", ⟨some ⟨some "other@x", some "target@x", none, none, none, none⟩⟩)]).count
      = 0 := by
  decide

/-- Claim C3, amended.  The fallback scan extracts one candidate email per
principal — the first non-empty field in priority order `emails[0].value`,
`email`, `_json.email`, `preferred_username` — and a session matches iff that
candidate lowercases to the target; every matching session in the store is
destroyed by `destroyUserSessions` (a match on a given field suffices only
when the higher-priority fields are absent or empty). -/
theorem fallback_scan_first_truthy_email :
    (∀ ne sd, sessionMatchesEmail ne sd = true ↔
      ∃ u m, sd.passportUser = some u ∧ extractEmail u = some m ∧ lowerStr m = ne) ∧
    (∀ email d st sid sd, email ≠ "" → (sid, sd) ∈ st →
      sessionMatchesEmail (lowerStr email) sd = true →
      sid ∉ ((destroyUserSessions email d st).store.map Prod.fst)) := by
  constructor
  · intro ne sd
    obtain ⟨pu⟩ := sd
    cases pu with
    | none => simp [sessionMatchesEmail]
    | some u =>
      cases hx : extractEmail u with
      | none => simp [sessionMatchesEmail, hx]
      | some e => simp [sessionMatchesEmail, hx]
  · intro email d st sid sd hemail hmem hmatch
    cases hlk : lookupKey (lowerStr email) d with
    | some sids =>
      have hunfold : destroyUserSessions email d st =
          destroyFallback (lowerStr email) sids.length (eraseKey (lowerStr email) d)
            (removeSessions sids st) (sids.map StoreCall.destroy) := by
        unfold destroyUserSessions
        simp [if_neg hemail, hlk]
      rw [hunfold]
      by_cases hsid : sid ∈ sids
      · intro hcontra
        obtain ⟨q, hq, hqs⟩ := List.mem_map.mp hcontra
        have hq1 : q ∈ removeSessions sids st := (List.mem_filter.mp hq).1
        have hq2 : q.1 ∉ sids := of_decide_eq_true (List.mem_filter.mp hq1).2
        rw [hqs] at hq2
        exact hq2 hsid
      · exact not_mem_destroyFallback_store _ _ _ _ _ _ _
          (List.mem_filter.mpr ⟨hmem, decide_eq_true hsid⟩) hmatch
    | none =>
      have hunfold : destroyUserSessions email d st =
          destroyFallback (lowerStr email) 0 d st [] := by
        unfold destroyUserSessions
        simp [if_neg hemail, hlk]
      rw [hunfold]
      exact not_mem_destroyFallback_store _ _ _ _ _ _ _ hmem hmatch

/-- Witness for C3 at concrete inputs: a session whose only email-bearing
field is `emails[0].value` matches and is destroyed. -/
theorem fallback_scan_first_truthy_email_witness :
    sessionMatchesEmail "a@x"
      ⟨some ⟨some "a@x", none, none, none, none, none⟩⟩ = true ∧
    "s1" ∉ ((destroyUserSessions "a@x" []
      [("s1", ⟨some ⟨some "a@x", none, none, none, none, none⟩⟩)]).store.map Prod.fst) := by
  constructor
  · exact (fallback_scan_first_truthy_email.1 "a@x"
      ⟨some ⟨some "a@x", none, none, none, none, none⟩⟩).mpr
      ⟨⟨some "a@x", none, none, none, none, none⟩, "a@x", rfl, by decide, by decide⟩
  · exact fallback_scan_first_truthy_email.2 "a@x" []
      [("s1", ⟨some ⟨some "a@x", none, none, none, none, none⟩⟩)] "s1"
      ⟨some ⟨some "a@x", none, none, none, none, none⟩⟩
      (by decide) (by decide) (by decide)

/-- Claim C4, counterexample.  The claim "the gate admits iff
`mfaVerified == true` and `now - mfaVerifiedAt < 5 minutes`, and a marker set
at time T is fresh at T+299s" fails at T = 0: the code also requires
`mfaVerifiedAt` to be truthy, and the number 0 is falsy in JS, so a marker
stamped with timestamp 0 is rejected even though `299000 - 0 < 300000`. -/
theorem mfa_gate_zero_timestamp_not_admitted :
    (⟨true, true, some 0, none⟩ : MfaSession).mfaVerified = true ∧
    (299000 : Int) - 0 < MFA_TIMEOUT ∧
    ensureMfaVerified 299000 ⟨true, true, some 0, none⟩ =
      GateResult.redirect "/stepup-mfa" ⟨true, true, some 0, some "/wire-transfer"⟩ := by
  decide

/-- Claim C4, amended.  The gate admits iff `mfaVerified` is true and
`mfaVerifiedAt` is set to a truthy (nonzero) timestamp `t` with
`now - t < 5 minutes`; a marker set at a nonzero time T is fresh at T+299s
and stale at T+301s; and in every stale/absent case the gate records
`mfaReturnUrl = '/wire-transfer'` in the session and redirects to
`/stepup-mfa` instead of reaching the handler. -/
theorem mfa_gate_freshness_characterization :
    (∀ now s, ensureMfaVerified now s = GateResult.proceed s ↔
      (s.mfaVerified = true ∧
        ∃ t, s.mfaVerifiedAt = some t ∧ t ≠ 0 ∧ now - t < MFA_TIMEOUT)) ∧
    (∀ (T : Int) (s : MfaSession), T ≠ 0 → s.mfaVerified = true →
      s.mfaVerifiedAt = some T →
      ensureMfaVerified (T + 299000) s = GateResult.proceed s ∧
      ensureMfaVerified (T + 301000) s =
        GateResult.redirect "/stepup-mfa" { s with mfaReturnUrl := some "/wire-transfer" }) ∧
    (∀ now s, mfaCheckPasses now s = false →
      ensureMfaVerified now s =
        GateResult.redirect "/stepup-mfa" { s with mfaReturnUrl := some "/wire-transfer" }) := by
  have hpass : ∀ now s, mfaCheckPasses now s = true ↔
      (s.mfaVerified = true ∧
        ∃ t, s.mfaVerifiedAt = some t ∧ t ≠ 0 ∧ now - t < MFA_TIMEOUT) := by
    intro now s
    unfold mfaCheckPasses
    cases ht : s.mfaVerifiedAt with
    | none => simp
    | some t =>
      simp only [Bool.and_eq_true, bne_iff_ne, ne_eq, decide_eq_true_eq]
      constructor
      · rintro ⟨h1, h2, h3⟩
        exact ⟨h1, t, rfl, h2, h3⟩
      · rintro ⟨h1, t', ht', h2, h3⟩
        cases ht'
        exact ⟨h1, h2, h3⟩
  refine ⟨?_, ?_, ?_⟩
  · intro now s
    constructor
    · intro h
      by_cases hb : mfaCheckPasses now s = true
      · exact (hpass now s).mp hb
      · unfold ensureMfaVerified at h
        rw [if_neg hb] at h
        exact absurd h (by simp)
    · intro h
      unfold ensureMfaVerified
      rw [if_pos ((hpass now s).mpr h)]
  · intro T s hT hv ht
    constructor
    · have hb : mfaCheckPasses (T + 299000) s = true :=
        (hpass _ s).mpr ⟨hv, T, ht, hT, by simp only [MFA_TIMEOUT]; omega⟩
      unfold ensureMfaVerified
      rw [if_pos hb]
    · have hb : ¬ mfaCheckPasses (T + 301000) s = true := by
        rw [hpass]
        rintro ⟨-, t', ht', -, h3⟩
        rw [ht] at ht'
        cases ht'
        simp only [MFA_TIMEOUT] at h3
        omega
      unfold ensureMfaVerified
      rw [if_neg hb]
  · intro now s hfail
    unfold ensureMfaVerified
    rw [if_neg (by simp [hfail])]

/-- Witness for C4 at concrete inputs: a marker stamped at nonzero T = 1000 is
admitted at T+299000 and redirected at T+301000. -/
theorem mfa_gate_freshness_characterization_witness :
    ensureMfaVerified (1000 + 299000) ⟨true, true, some 1000, none⟩ =
      GateResult.proceed ⟨true, true, some 1000, none⟩ ∧
    ensureMfaVerified (1000 + 301000) ⟨true, true, some 1000, none⟩ =
      GateResult.redirect "/stepup-mfa" ⟨true, true, some 1000, some "/wire-transfer"⟩ :=
  mfa_gate_freshness_characterization.2.1 1000 ⟨true, true, some 1000, none⟩
    (by decide) rfl rfl

/-- Claim C10, confirmed.  The MFA gate is installed only on
`GET /wire-transfer`: the POST chain is `[ensureLoggedIn]` alone, so every
authenticated session reaches the POST handler (validation and processing)
regardless of `mfaVerified`/`mfaVerifiedAt`, while the same stale session is
redirected to `/stepup-mfa` on GET. -/
theorem post_wire_transfer_skips_mfa_gate :
    Middleware.mfaGate ∉ wireTransferPostChain ∧
    Middleware.mfaGate ∈ wireTransferGetChain ∧
    (∀ now s, s.authenticated = true →
      runChain now wireTransferPostChain s = ChainResult.reachedHandler s) ∧
    (∀ now s, s.authenticated = true → mfaCheckPasses now s = false →
      runChain now wireTransferGetChain s =
        ChainResult.redirected "/stepup-mfa"
          { s with mfaReturnUrl := some "/wire-transfer" } ∧
      runChain now wireTransferPostChain s = ChainResult.reachedHandler s) := by
  refine ⟨by decide, by decide, ?_, ?_⟩
  · intro now s hauth
    simp [wireTransferPostChain, runChain, runMiddleware, hauth]
  · intro now s hauth hfail
    constructor
    · simp [wireTransferGetChain, runChain, runMiddleware, hauth,
        ensureMfaVerified, hfail]
    · simp [wireTransferPostChain, runChain, runMiddleware, hauth]

/-- Witness for C10 at concrete inputs: an authenticated session that never
completed step-up reaches the POST handler but is redirected on GET. -/
theorem post_wire_transfer_skips_mfa_gate_witness :
    runChain 0 wireTransferPostChain ⟨true, false, none, none⟩ =
      ChainResult.reachedHandler ⟨true, false, none, none⟩ ∧
    runChain 0 wireTransferGetChain ⟨true, false, none, none⟩ =
      ChainResult.redirected "/stepup-mfa" ⟨true, false, none, some "/wire-transfer"⟩ :=
  ⟨post_wire_transfer_skips_mfa_gate.2.2.1 0 ⟨true, false, none, none⟩ rfl,
   (post_wire_transfer_skips_mfa_gate.2.2.2 0 ⟨true, false, none, none⟩ rfl (by decide)).1⟩

/-- A `JsonWebTokenError` description can never collide with the expiry
description, whatever the library's message. -/
theorem invalidTokenMsg_ne_expired (msg : String) :
    "Invalid token: " ++ msg ≠ "Token has expired" := by
  intro h
  have h2 := congrArg String.data h
  rw [String.data_append] at h2
  simp at h2

/-- Claim C5, confirmed.  A revocation request bearing a well-formed token
whose `exp` lies in the past by more than the 30-second clock-skew tolerance
(and which fails no earlier check) is rejected: the middleware answers 401
with `error_description` exactly `Token has expired`; and that description is
produced by no other validation failure, distinguishing expiry from other
token invalidity. -/
theorem expired_token_gives_expired_description :
    (∀ (orgUrl revocationEndpoint h tokStr : String) (rest : List String)
      (decodeToken : String → Option LogoutToken) (keys : List (String × String))
      (now : Int) (tok : LogoutToken) (key : String) (e : Int),
      h ≠ "" →
      splitSpace h = "Bearer" :: tokStr :: rest →
      tokStr ≠ "" →
      decodeToken tokStr = some tok →
      getSigningKey keys tok.header = some key →
      tok.signerKey = key →
      tok.header.alg ∈ allowedAlgs →
      nbfViolated tok.payload.nbf 30 now = false →
      tok.payload.exp = some e →
      e + 30 < now →
      universalLogoutAuth orgUrl revocationEndpoint (some h) decodeToken keys now =
        AuthOutcome.unauthorized "Token has expired") ∧
    (∀ err : JwtError,
      describeJwtError err = "Token has expired" → err = JwtError.tokenExpired) := by
  constructor
  · intro orgUrl revocationEndpoint h tokStr rest decodeToken keys now tok key e
      hne hsplit htok hdec hkey hsig halg hnbf hexp hlt
    have hexpv : expViolated tok.payload.exp 30 now = true := by
      rw [hexp]
      unfold expViolated
      simp only [decide_eq_true_eq]
      omega
    have hval : validateLogoutToken (decodeToken tokStr) keys revocationEndpoint
        (stripTrailingSlash orgUrl) now = Except.error JwtError.tokenExpired := by
      rw [hdec]
      unfold validateLogoutToken
      dsimp only
      rw [hkey]
      dsimp only
      unfold jwtVerify
      rw [if_neg (by simp [halg]), if_neg (by simp [hsig]), hnbf, hexpv]
      simp
    have hlower : lowerStr "Bearer" = "bearer" := by decide
    unfold universalLogoutAuth
    dsimp only
    rw [if_neg hne, hsplit]
    simp only [List.getD_cons_zero, List.getD_cons_succ, hlower]
    rw [if_neg (by simp [htok]), hval]
    rfl
  · intro err hdesc
    cases err with
    | invalidTokenFormat => exact absurd hdesc (by decide)
    | keyNotFound => exact absurd hdesc (by decide)
    | tokenExpired => rfl
    | notBefore => exact absurd hdesc (by decide)
    | jsonWebToken msg => exact absurd hdesc (invalidTokenMsg_ne_expired msg)

/-- Witness for C5 at concrete inputs: `sampleExpiredToken` expired at
`exp = 100` is presented at clock time 1000 and the middleware answers the
expiry description. -/
theorem expired_token_gives_expired_description_witness :
    universalLogoutAuth "https://org.example" "https://app.example/revoke"
      (some "Bearer tok")
      (fun s => if s = "tok" then some sampleExpiredToken else none)
      [("k1", "PK1")] 1000 = AuthOutcome.unauthorized "Token has expired" :=
  expired_token_gives_expired_description.1 "https://org.example"
    "https://app.example/revoke" "Bearer tok" "tok" []
    (fun s => if s = "tok" then some sampleExpiredToken else none)
    [("k1", "PK1")] 1000 sampleExpiredToken "PK1" 100
    (by decide) (by decide) (by decide) (by decide) (by decide) rfl (by decide)
    (by decide) rfl (by decide)

/-- Claim C7, confirmed.  Subject-identifier parsing accepts exactly the two
variants — format `email` with a non-empty email, and format `iss_sub` with
non-empty `iss` and `sub` whose composite key is `iss + "|" + sub` — and
every other or incomplete variant parses to nothing, upon which the endpoint
answers 400 with an `error_description` naming the offending format, touching
neither state nor store. -/
theorem subject_identifier_parsing_characterization :
    (∀ s uid, extractUserIdentifier s = some uid →
      (s.format = some "email" ∧
        ∃ e, s.email = some e ∧ e ≠ "" ∧ uid = UserIdentifier.email e e) ∨
      (s.format = some "iss_sub" ∧
        ∃ i su, s.iss = some i ∧ s.sub = some su ∧ i ≠ "" ∧ su ≠ "" ∧
          uid = UserIdentifier.issSub (i ++ "|" ++ su) i su)) ∧
    (∀ s e, s.format = some "email" → s.email = some e → e ≠ "" →
      extractUserIdentifier s = some (UserIdentifier.email e e)) ∧
    (∀ s i su, s.format = some "iss_sub" → s.iss = some i → s.sub = some su →
      i ≠ "" → su ≠ "" →
      extractUserIdentifier s = some (UserIdentifier.issSub (i ++ "|" ++ su) i su)) ∧
    (∀ s st, extractUserIdentifier s = none →
      (universalLogoutPost (some (some s)) st).response =
        RevocationResponse.badRequest
          ("Unrecognized subject identifier format: " ++ jsShowOpt s.format ++
            ". Supported formats: email, iss_sub") ∧
      (universalLogoutPost (some (some s)) st).state = st ∧
      (universalLogoutPost (some (some s)) st).calls = []) := by
  refine ⟨?_, ?_, ?_, ?_⟩
  · intro s uid h
    unfold extractUserIdentifier at h
    by_cases hf : s.format = some "email"
    · rw [if_pos hf] at h
      cases he : s.email with
      | none =>
        rw [he] at h
        simp at h
      | some e =>
        rw [he] at h
        dsimp only at h
        by_cases hee : e = ""
        · rw [if_pos hee] at h
          exact absurd h (by simp)
        · rw [if_neg hee] at h
          exact Or.inl ⟨hf, e, rfl, hee, (Option.some.injEq _ _ ▸ h).symm⟩
    · rw [if_neg hf] at h
      by_cases hf2 : s.format = some "iss_sub"
      · rw [if_pos hf2] at h
        cases hi : s.iss with
        | none =>
          rw [hi] at h
          simp at h
        | some i =>
          cases hsu : s.sub with
          | none =>
            rw [hi, hsu] at h
            simp at h
          | some su =>
            rw [hi, hsu] at h
            dsimp only at h
            by_cases hie : i = "" ∨ su = ""
            · rw [if_pos hie] at h
              exact absurd h (by simp)
            · rw [if_neg hie] at h
              push_neg at hie
              exact Or.inr ⟨hf2, i, su, rfl, rfl, hie.1, hie.2,
                (Option.some.injEq _ _ ▸ h).symm⟩
      · rw [if_neg hf2] at h
        exact absurd h (by simp)
  · intro s e hf he hee
    unfold extractUserIdentifier
    rw [if_pos hf, he]
    dsimp only
    rw [if_neg hee]
  · intro s i su hf hi hsu hie hsue
    unfold extractUserIdentifier
    rw [if_neg (by simp [hf]), if_pos hf, hi, hsu]
    dsimp only
    rw [if_neg (by simp [hie, hsue])]
  · intro s st h
    refine ⟨?_, ?_, ?_⟩ <;> simp [universalLogoutPost, h]

/-- Witness for C7 at concrete inputs: both accepted variants parse as
specified, and an unknown format is answered with a 400 naming it. -/
theorem subject_identifier_parsing_characterization_witness :
    extractUserIdentifier ⟨some "email", some "u@x", none, none⟩ =
      some (UserIdentifier.email "u@x" "u@x") ∧
    extractUserIdentifier ⟨some "iss_sub", none, some "https://iss", some "sub1"⟩ =
      some (UserIdentifier.issSub ("https://iss" ++ "|" ++ "sub1") "https://iss" "sub1") ∧
    (universalLogoutPost (some (some ⟨some "unknown", none, none, none⟩))
        ⟨[], []⟩).response =
      RevocationResponse.badRequest
        ("Unrecognized subject identifier format: " ++ jsShowOpt (some "unknown") ++
          ". Supported formats: email, iss_sub") :=
  ⟨subject_identifier_parsing_characterization.2.1 ⟨some "email", some "u@x", none, none⟩
      "u@x" rfl rfl (by decide),
   subject_identifier_parsing_characterization.2.2.1
      ⟨some "iss_sub", none, some "https://iss", some "sub1"⟩ "https://iss" "sub1"
      rfl rfl rfl (by decide) (by decide),
   (subject_identifier_parsing_characterization.2.2.2
      ⟨some "unknown", none, none, none⟩ ⟨[], []⟩ (by decide)).1⟩

/-- Claim C8, confirmed.  An authenticated, well-formed revocation request that
matches zero sessions is answered 204 (`res.sendStatus(204)`), never a
not-found response, in both identifier formats. -/
theorem zero_match_revocation_responds_no_content :
    (∀ s e st, extractUserIdentifier s = some (UserIdentifier.email e e) →
      (destroyUserSessions e st.dir st.store).count = 0 →
      (universalLogoutPost (some (some s)) st).response = RevocationResponse.noContent) ∧
    (∀ s v i su st, extractUserIdentifier s = some (UserIdentifier.issSub v i su) →
      (destroyUserSessionsBySubject su st.store).count = 0 →
      (universalLogoutPost (some (some s)) st).response =
        RevocationResponse.noContent) := by
  constructor
  · intro s e st hx hzero
    simp [universalLogoutPost, hx]
  · intro s v i su st hx hzero
    simp [universalLogoutPost, hx]

/-- Witness for C8 at concrete inputs: revoking an email with no directory
entry and an empty store answers 204. -/
theorem zero_match_revocation_responds_no_content_witness :
    (universalLogoutPost (some (some ⟨some "email", some "ghost@x", none, none⟩))
      ⟨[], []⟩).response = RevocationResponse.noContent :=
  zero_match_revocation_responds_no_content.1
    ⟨some "email", some "ghost@x", none, none⟩ "ghost@x" ⟨[], []⟩
    (by decide) (by decide)

/-- Claim C9, confirmed.  The `iss_sub` resolution is fallback-only:
`destroyUserSessionsBySubject` enumerates the store once, destroys and counts
exactly the sessions whose principal carries the subject (in `id` or
`_json.sub`), preserves every non-matching session, and the route leaves the
`userSessions` directory untouched. -/
theorem iss_sub_resolution_fallback_only :
    (∀ su sd, matchesSubject su sd = true ↔
      ∃ u, sd.passportUser = some u ∧ (u.id = some su ∨ u.jsonSub = some su)) ∧
    (∀ su st, (destroyUserSessionsBySubject su st).count =
        (st.filter (fun p => matchesSubject su p.2)).length ∧
      (destroyUserSessionsBySubject su st).trace =
        StoreCall.all :: (st.filter (fun p => matchesSubject su p.2)).map
          (fun p => StoreCall.destroy p.1)) ∧
    (∀ su st sid sd, (sid, sd) ∈ st → matchesSubject su sd = true →
      sid ∉ ((destroyUserSessionsBySubject su st).store.map Prod.fst)) ∧
    (∀ su st p, (st.map Prod.fst).Nodup → p ∈ st → matchesSubject su p.2 = false →
      p ∈ (destroyUserSessionsBySubject su st).store) ∧
    (∀ s v i su appSt,
      extractUserIdentifier s = some (UserIdentifier.issSub v i su) →
      (universalLogoutPost (some (some s)) appSt).state.dir = appSt.dir ∧
      (universalLogoutPost (some (some s)) appSt).state.store =
        (destroyUserSessionsBySubject su appSt.store).store ∧
      (universalLogoutPost (some (some s)) appSt).calls =
        (destroyUserSessionsBySubject su appSt.store).trace) := by
  refine ⟨?_, ?_, ?_, ?_, ?_⟩
  · intro su sd
    obtain ⟨pu⟩ := sd
    cases pu with
    | none => simp [matchesSubject]
    | some u => simp [matchesSubject]
  · intro su st
    exact ⟨rfl, rfl⟩
  · intro su st sid sd hmem hmatch
    intro hcontra
    obtain ⟨q, hq, hqs⟩ := List.mem_map.mp hcontra
    have hq' := List.mem_filter.mp hq
    have hnot : q.1 ∉ (st.filter (fun p => matchesSubject su p.2)).map Prod.fst :=
      of_decide_eq_true hq'.2
    apply hnot
    rw [hqs]
    exact List.mem_map_of_mem Prod.fst (List.mem_filter.mpr ⟨hmem, hmatch⟩)
  · intro su st p hnodup hp hfalse
    apply List.mem_filter.mpr
    refine ⟨hp, decide_eq_true ?_⟩
    intro hcontra
    obtain ⟨q, hq, hqs⟩ := List.mem_map.mp hcontra
    have hq' := List.mem_filter.mp hq
    have : q = p := eq_of_mem_of_nodup_keys st hnodup q p hq'.1 hp hqs
    rw [this] at hq'
    rw [hq'.2] at hfalse
    simp at hfalse
  · intro s v i su appSt hx
    refine ⟨?_, ?_, ?_⟩ <;> simp [universalLogoutPost, hx]

/-- Witness for C9 at concrete inputs: an `iss_sub` revocation that destroys
a matching session leaves the (email-keyed) directory exactly as it was. -/
theorem iss_sub_resolution_fallback_only_witness :
    (universalLogoutPost
      (some (some ⟨some "iss_sub", none, some "https://iss", some "u1"⟩))
      ⟨[("a@x", ["s1"])],
       [("s1", ⟨some ⟨none, none, none, none, some "u1", none⟩⟩)]⟩).state.dir =
      [("a@x", ["s1"])] :=
  (iss_sub_resolution_fallback_only.2.2.2.2
    ⟨some "iss_sub", none, some "https://iss", some "u1"⟩
    ("https://iss" ++ "|" ++ "u1") "https://iss" "u1"
    ⟨[("a@x", ["s1"])], [("s1", ⟨some ⟨none, none, none, none, some "u1", none⟩⟩)]⟩
    (by decide)).1

end BankingApp
